import Mathlib

/-!
Verification development for the reAct-agent repository.

The embedding covers:
* a model of dynamic JSON values (`Json`), standing for Go's
  `interface\x7b\x7d` values produced by `encoding/json.Unmarshal`,
  together with a parser and a Go-style marshaller;
* the SSE stream decoder of `chatmodel/qwen.go` (`QWenModelClient.Stream`),
  byte-buffer handling included;
* the agent control loop of `agent.ReactAgent.Generate`, tool-call parsing
  (`parseToolCall`), tool dispatch and result feedback.

Machine integers are modelled as `Int`/`Nat`; Go strings as Lean `String`
(`List Char` where character-level work is needed).
-/

namespace ReactAgent

/-- Named characters, so that source text stays free of delicate literals. -/
def quoteC : Char := Char.ofNat 34

def backslashC : Char := Char.ofNat 92

def lbraceC : Char := Char.ofNat 123

def rbraceC : Char := Char.ofNat 125

def newlineC : Char := Char.ofNat 10

def crC : Char := Char.ofNat 13

def tabC : Char := Char.ofNat 9

def squote : String := String.mk [Char.ofNat 39]

/-- Json models the dynamic values Go's `encoding/json` produces for
`interface\x7b\x7d` targets.  Numbers are carried by their decimal lexeme
(the source text of the literal): the claims under verification only
compare and re-serialize numbers whose lexeme form is canonical, so the
float64 re-formatting Go performs is not modelled further. -/
inductive Json where
  | null
  | bool (b : Bool)
  | num (lexeme : String)
  | str (s : String)
  | arr (elems : List Json)
  | obj (fields : List (String × Json))
deriving Repr

/-- JObj is the field list of a JSON object; it models the content of a Go
`map[string]interface\x7b\x7d` (keys unique, insertion order irrelevant to
lookup). -/
abbrev JObj := List (String × Json)

/-- Insert-or-replace, mirroring Go map assignment (later duplicate JSON
keys overwrite earlier ones during `Unmarshal`). -/
def upsert : JObj → String → Json → JObj
  | [], k, v => [(k, v)]
  | (k0, v0) :: rest, k, v =>
      if k0 = k then (k0, v) :: rest else (k0, v0) :: upsert rest k v

/-- Map lookup on a field list (first match; fields built with `upsert`
have unique keys). -/
def jlookup (fs : JObj) (k : String) : Option Json :=
  match fs with
  | [] => none
  | (k0, v0) :: rest => if k0 = k then some v0 else jlookup rest k

/-- Whitespace accepted between JSON tokens (space, tab, newline, CR). -/
def wsChar (c : Char) : Bool :=
  c == ' ' || c == tabC || c == newlineC || c == crC

def skipWs : List Char → List Char
  | [] => []
  | c :: cs => if wsChar c then skipWs cs else c :: cs

def isDigitC (c : Char) : Bool := '0' ≤ c && c ≤ '9'

def hexVal (c : Char) : Option Nat :=
  if '0' ≤ c ∧ c ≤ '9' then some (c.toNat - 48)
  else if 'a' ≤ c ∧ c ≤ 'f' then some (c.toNat - 87)
  else if 'A' ≤ c ∧ c ≤ 'F' then some (c.toNat - 55)
  else none

/-- String body parser (opening quote already consumed); fuel bounds the
recursion, one unit per consumed character is sufficient. -/
def pStringRest : Nat → List Char → List Char → Option (String × List Char)
  | 0, _, _ => none
  | _ + 1, _, [] => none
  | fu + 1, acc, c :: cs =>
    if c = quoteC then some (String.mk acc.reverse, cs)
    else if c = backslashC then
      match cs with
      | [] => none
      | e :: cs2 =>
        if e = quoteC then pStringRest fu (quoteC :: acc) cs2
        else if e = backslashC then pStringRest fu (backslashC :: acc) cs2
        else if e = '/' then pStringRest fu ('/' :: acc) cs2
        else if e = 'n' then pStringRest fu (newlineC :: acc) cs2
        else if e = 't' then pStringRest fu (tabC :: acc) cs2
        else if e = 'r' then pStringRest fu (crC :: acc) cs2
        else if e = 'b' then pStringRest fu (Char.ofNat 8 :: acc) cs2
        else if e = 'f' then pStringRest fu (Char.ofNat 12 :: acc) cs2
        else if e = 'u' then
          match cs2 with
          | h1 :: h2 :: h3 :: h4 :: cs3 =>
            match hexVal h1, hexVal h2, hexVal h3, hexVal h4 with
            | some a, some b, some c3, some d =>
                pStringRest fu (Char.ofNat (((a * 16 + b) * 16 + c3) * 16 + d) :: acc) cs3
            | _, _, _, _ => none
          | _ => none
        else none
    else pStringRest fu (c :: acc) cs

/-- Fractional part of a number literal (empty when absent). -/
def pFrac : List Char → Option (List Char × List Char)
  | [] => some ([], [])
  | c :: rest =>
    if c = '.' then
      let (ds, r) := rest.span isDigitC
      if ds.isEmpty then none else some (c :: ds, r)
    else some ([], c :: rest)

/-- Exponent part of a number literal (empty when absent). -/
def pExp : List Char → Option (List Char × List Char)
  | [] => some ([], [])
  | c :: rest =>
    if c = 'e' ∨ c = 'E' then
      match rest with
      | [] => none
      | s :: rest2 =>
        if s = '+' ∨ s = '-' then
          let (ds, r) := rest2.span isDigitC
          if ds.isEmpty then none else some (c :: s :: ds, r)
        else
          let (ds, r) := rest.span isDigitC
          if ds.isEmpty then none else some (c :: ds, r)
    else some ([], c :: rest)

/-- Number literal parser, returning the lexeme. -/
def pNumber (cs : List Char) : Option (String × List Char) :=
  let (sign, cs1) :=
    match cs with
    | c :: rest => if c = '-' then ([c], rest) else (([] : List Char), cs)
    | [] => ([], cs)
  let (ip, cs2) := cs1.span isDigitC
  if ip.isEmpty then none
  else
    match pFrac cs2 with
    | none => none
    | some (fp, cs3) =>
      match pExp cs3 with
      | none => none
      | some (ep, cs4) => some (String.mk (sign ++ ip ++ fp ++ ep), cs4)

mutual

/-- Value parser with fuel; models the grammar `encoding/json` accepts. -/
def pVal : Nat → List Char → Option (Json × List Char)
  | 0, _ => none
  | fu + 1, cs =>
    match skipWs cs with
    | [] => none
    | c :: rest =>
      if c = lbraceC then
        match skipWs rest with
        | [] => none
        | d :: rest2 =>
          if d = rbraceC then some (.obj [], rest2) else pFields fu [] (d :: rest2)
      else if c = '[' then
        match skipWs rest with
        | [] => none
        | d :: rest2 =>
          if d = ']' then some (.arr [], rest2) else pElems fu [] (d :: rest2)
      else if c = quoteC then
        match pStringRest (rest.length + 1) [] rest with
        | some (s, r) => some (.str s, r)
        | none => none
      else if c = 't' then
        match rest with
        | 'r' :: 'u' :: 'e' :: r => some (.bool true, r)
        | _ => none
      else if c = 'f' then
        match rest with
        | 'a' :: 'l' :: 's' :: 'e' :: r => some (.bool false, r)
        | _ => none
      else if c = 'n' then
        match rest with
        | 'u' :: 'l' :: 'l' :: r => some (.null, r)
        | _ => none
      else
        match pNumber (c :: rest) with
        | some (lx, r) => some (.num lx, r)
        | none => none

/-- Array elements (first element pending). -/
def pElems : Nat → List Json → List Char → Option (Json × List Char)
  | 0, _, _ => none
  | fu + 1, acc, cs =>
    match pVal fu cs with
    | none => none
    | some (v, r) =>
      match skipWs r with
      | [] => none
      | c :: r2 =>
        if c = ',' then pElems fu (v :: acc) r2
        else if c = ']' then some (.arr (v :: acc).reverse, r2)
        else none

/-- Object fields (first field pending), accumulated with `upsert`. -/
def pFields : Nat → JObj → List Char → Option (Json × List Char)
  | 0, _, _ => none
  | fu + 1, acc, cs =>
    match skipWs cs with
    | [] => none
    | c :: r =>
      if c = quoteC then
        match pStringRest (r.length + 1) [] r with
        | none => none
        | some (k, r2) =>
          match skipWs r2 with
          | [] => none
          | d :: r3 =>
            if d = ':' then
              match pVal fu r3 with
              | none => none
              | some (v, r4) =>
                match skipWs r4 with
                | [] => none
                | e2 :: r5 =>
                  if e2 = ',' then pFields fu (upsert acc k v) r5
                  else if e2 = rbraceC then some (.obj (upsert acc k v), r5)
                  else none
            else none
      else none

end

/-- Top-level JSON decode of a string; fuel `2*len + 2` dominates the
parser's fuel use (at most two units per consumed character).  Trailing
whitespace is allowed, trailing data is an error, as in `encoding/json`. -/
def decodeJson (s : String) : Option Json :=
  match pVal (2 * s.data.length + 2) s.data with
  | some (j, r) => if skipWs r = [] then some j else none
  | none => none

/-- Decode into a Go `map[string]interface\x7b\x7d`: the top level must be
an object, anything else is an `Unmarshal` error. -/
def decodeObj (s : String) : Option JObj :=
  match decodeJson s with
  | some (.obj fs) => some fs
  | _ => none

/-- Hexadecimal digit, lower case, as emitted by Go's JSON encoder. -/
def hexDigitC (n : Nat) : Char :=
  if n < 10 then Char.ofNat (48 + n) else Char.ofNat (87 + n)

/-- Character escaping of Go's JSON encoder (quotes, backslash, the short
control escapes, `\u00XX` for other control characters, and the HTML-safe
escapes for angle brackets and ampersand). -/
def goEscapeChar (c : Char) : List Char :=
  if c = quoteC then [backslashC, quoteC]
  else if c = backslashC then [backslashC, backslashC]
  else if c = newlineC then [backslashC, 'n']
  else if c = crC then [backslashC, 'r']
  else if c = tabC then [backslashC, 't']
  else if c.toNat < 32 then
    [backslashC, 'u', '0', '0', hexDigitC (c.toNat / 16), hexDigitC (c.toNat % 16)]
  else if c = '<' then [backslashC, 'u', '0', '0', '3', 'c']
  else if c = '>' then [backslashC, 'u', '0', '0', '3', 'e']
  else if c = '&' then [backslashC, 'u', '0', '0', '2', '6']
  else [c]

/-- Quoted, escaped string literal as produced by `json.Marshal`. -/
def goQuoteString (s : String) : String :=
  String.mk (quoteC :: s.data.foldr (fun c acc => goEscapeChar c ++ acc) [quoteC])

/-- Byte-wise order on strings (Go sorts object keys this way when
marshalling a map). -/
def charListLtB : List Char → List Char → Bool
  | [], [] => false
  | [], _ :: _ => true
  | _ :: _, [] => false
  | a :: as, b :: bs => if a < b then true else if b < a then false else charListLtB as bs

def insertField (p : String × Json) : List (String × Json) → List (String × Json)
  | [] => [p]
  | q :: rest =>
      if charListLtB p.1.data q.1.data then p :: q :: rest else q :: insertField p rest

/-- Sort object fields by key, as `json.Marshal` does for Go maps. -/
def sortFields : List (String × Json) → List (String × Json)
  | [] => []
  | p :: rest => insertField p (sortFields rest)

mutual

/-- Fueled core of the marshaller (fuel only to discharge termination of
the sort-then-recurse pattern; `sizeOf` of the value is always enough). -/
def serializeF : Nat → Json → String
  | 0, _ => ""
  | _ + 1, .null => "null"
  | _ + 1, .bool true => "true"
  | _ + 1, .bool false => "false"
  | _ + 1, .num lx => lx
  | _ + 1, .str s => goQuoteString s
  | fu + 1, .arr xs => "[" ++ serializeElemsF fu xs ++ "]"
  | fu + 1, .obj fs =>
      String.mk [lbraceC] ++ serializeFieldsF fu (sortFields fs) ++ String.mk [rbraceC]

def serializeElemsF : Nat → List Json → String
  | 0, _ => ""
  | _ + 1, [] => ""
  | fu + 1, [x] => serializeF fu x
  | fu + 1, x :: y :: rest => serializeF fu x ++ "," ++ serializeElemsF fu (y :: rest)

def serializeFieldsF : Nat → List (String × Json) → String
  | 0, _ => ""
  | _ + 1, [] => ""
  | fu + 1, [(k, v)] => goQuoteString k ++ ":" ++ serializeF fu v
  | fu + 1, (k, v) :: q :: rest =>
      goQuoteString k ++ ":" ++ serializeF fu v ++ "," ++ serializeFieldsF fu (q :: rest)

end

mutual

/-- Structural size of a JSON value, used as fuel for the marshaller. -/
def jsize : Json → Nat
  | .null => 1
  | .bool _ => 1
  | .num _ => 1
  | .str _ => 1
  | .arr xs => 1 + jsizeElems xs
  | .obj fs => 1 + jsizeFields fs

def jsizeElems : List Json → Nat
  | [] => 1
  | x :: rest => 1 + jsize x + jsizeElems rest

def jsizeFields : List (String × Json) → Nat
  | [] => 1
  | (_, v) :: rest => 1 + jsize v + jsizeFields rest

end

/-- Marshal a JSON value the way `encoding/json` marshals the
corresponding dynamic Go value (map keys sorted, strings escaped). -/
def serialize (j : Json) : String := serializeF (jsize j) j

/-! The QWen response shapes of `chatmodel/qwen.go` and their
`json.Unmarshal` decoding.  A decode returns `none` exactly where Go's
`Unmarshal` reports an error (syntax error or type mismatch on any field);
absent fields and JSON `null` leave the zero value, unknown fields are
ignored. -/

structure QWenMessage where
  role : String
  content : String
deriving Repr

structure QWenChoice where
  index : Int
  message : QWenMessage
  delta : QWenMessage
  finishReason : String
deriving Repr

structure QWenStreamResponse where
  id : String
  object : String
  created : Int
  model : String
  choices : List QWenChoice
deriving Repr

/-- Field access treating a missing field as JSON `null` (both leave the
zero value in Go). -/
def fieldD (fs : JObj) (k : String) : Json := (jlookup fs k).getD .null

/-- Unmarshal into a Go `string` target. -/
def decString : Json → Option String
  | .str s => some s
  | .null => some ""
  | _ => none

/-- Integer value of a number lexeme (`strconv.ParseInt` semantics: an
optional sign followed by decimal digits only). -/
def intLexeme (lx : String) : Option Int :=
  let core := fun (ds : List Char) =>
    if ds.isEmpty ∨ ¬ ds.all isDigitC then none
    else some (ds.foldl (fun acc c => acc * 10 + (Int.ofNat (c.toNat - 48))) 0)
  match lx.data with
  | c :: rest => if c = '-' then (core rest).map (fun n => -n) else core lx.data
  | [] => none

/-- Unmarshal into a Go `int`/`int64` target. -/
def decInt : Json → Option Int
  | .num lx => intLexeme lx
  | .null => some (0 : Int)
  | _ => none

def decQWenMessage : Json → Option QWenMessage
  | .obj fs => do
      let r ← decString (fieldD fs "role")
      let c ← decString (fieldD fs "content")
      pure ⟨r, c⟩
  | .null => some ⟨"", ""⟩
  | _ => none

def decQWenChoice : Json → Option QWenChoice
  | .obj fs => do
      let i ← decInt (fieldD fs "index")
      let m ← decQWenMessage (fieldD fs "message")
      let d ← decQWenMessage (fieldD fs "delta")
      let f ← decString (fieldD fs "finish_reason")
      pure ⟨i, m, d, f⟩
  | .null => some ⟨0, ⟨"", ""⟩, ⟨"", ""⟩, ""⟩
  | _ => none

def decChoiceList : Json → Option (List QWenChoice)
  | .arr xs => xs.mapM decQWenChoice
  | .null => some []
  | _ => none

/-- The `json.Unmarshal([]byte(data), &streamResp)` step of the stream
loop (qwen.go line 285). -/
def decodeStreamResp (s : String) : Option QWenStreamResponse :=
  match decodeJson s with
  | some (.obj fs) => do
      let i ← decString (fieldD fs "id")
      let o ← decString (fieldD fs "object")
      let cr ← decInt (fieldD fs "created")
      let md ← decString (fieldD fs "model")
      let ch ← decChoiceList (fieldD fs "choices")
      pure ⟨i, o, cr, md, ch⟩
  | some .null => some ⟨"", "", 0, "", []⟩
  | _ => none

/-! Stream decoding: the byte path of `QWenModelClient.Stream`
(qwen.go lines 253-297).  The worker keeps a `bytes.Buffer`; on each chunk
it appends the chunk's bytes and repeatedly calls `buf.ReadString(newline)`.
`ReadString` returns the data up to and including the delimiter, and when
no delimiter is present it CONSUMES the remaining buffered data and returns
it together with `io.EOF`; on `io.EOF` the code breaks out of the line loop
without restoring that data, so a trailing partial line is dropped from the
buffer.  The embedding mirrors exactly that. -/

/-- Boolean list-level check that `pre` starts the list. -/
def listStarts : List Char → List Char → Bool
  | _, [] => true
  | [], _ :: _ => false
  | c :: cs, p :: ps => if c = p then listStarts cs ps else false

/-- Boolean `strings.HasPrefix`. -/
def strStarts (s pre : String) : Bool := listStarts s.data pre.data

/-- Model of `strings.TrimRight(line, crlf)`: removes every trailing CR or
newline character. -/
def trimRightCRLF (cs : List Char) : List Char :=
  (cs.reverse.dropWhile (fun c => c == crC || c == newlineC)).reverse

/-- Outcome of one complete line inside the read loop. -/
inductive LineOut where
  | skip
  | emit (frag : String)
  | done
deriving Repr, DecidableEq

/-- Trimmed line string (qwen.go line 273). -/
def lineOf (raw : List Char) : String := String.mk (trimRightCRLF raw)

/-- Data payload after the six-character `data: ` prefix
(`strings.TrimPrefix`, line 280, reached only after the prefix check). -/
def dataOf (line : String) : String := String.mk (line.data.drop 6)

/-- Per-line behavior of the stream loop body (qwen.go lines 273-296):
trim trailing CR/LF; drop blank and comment lines; drop lines without the
`data: ` prefix; stop on the `[DONE]` sentinel; otherwise decode the data
as one stream event and emit the first choice's delta content when it is
non-empty, skipping undecodable lines. -/
def handleLine (raw : List Char) : LineOut :=
  let line := lineOf raw
  if line = "" then .skip
  else if strStarts line ":" then .skip
  else if ¬ strStarts line "data: " then .skip
  else
    let data := dataOf line
    if data = "[DONE]" then .done
    else
      match decodeStreamResp data with
      | none => .skip
      | some resp =>
        match resp.choices with
        | [] => .skip
        | choice :: _ =>
          if choice.delta.content = "" then .skip else .emit choice.delta.content

/-- Successful `buf.ReadString(newline)`: the shortest segment up to and
including a newline, plus the remaining buffer; `none` when the buffer has
no newline (the `io.EOF` case, in which `ReadString` has consumed and
returned the partial data). -/
def splitNL : List Char → Option (List Char × List Char)
  | [] => none
  | c :: cs =>
    if c = newlineC then some ([c], cs)
    else
      match splitNL cs with
      | none => none
      | some (l, r) => some (c :: l, r)

theorem splitNL_rest_length {cs l r : List Char} (h : splitNL cs = some (l, r)) :
    r.length < cs.length := by
  induction cs generalizing l r with
  | nil => simp [splitNL] at h
  | cons c cs ih =>
    by_cases hc : c = newlineC
    · simp [splitNL, hc] at h
      simp [← h.2]
    · simp only [splitNL, if_neg hc] at h
      match hs : splitNL cs with
      | none => rw [hs] at h; simp at h
      | some (l0, r0) =>
        rw [hs] at h
        simp at h
        have := ih hs
        simpa [← h.2] using Nat.lt_succ_of_lt this

/-- Fueled inner `for` loop over the buffer (qwen.go lines 261-297):
repeatedly read one line; on `io.EOF` break, the partial data having been
consumed by `ReadString` (hence the empty residual buffer); on a complete
line act per `handleLine`, returning from the goroutine on `[DONE]`.
Result: fragments sent to the message channel, whether the goroutine
returned, and the residual buffer content.  One unit of fuel per extracted
line is sufficient, each line holding at least one character. -/
def drainBufferF : Nat → List Char → List String × Bool × List Char
  | 0, _ => ([], false, [])
  | fu + 1, cs =>
    match splitNL cs with
    | none => ([], false, [])
    | some (l, r) =>
      match handleLine l with
      | .skip => drainBufferF fu r
      | .emit f =>
        let (fs, d, b) := drainBufferF fu r
        (f :: fs, d, b)
      | .done => ([], true, [])

/-- Inner line loop with adequate fuel. -/
def drainBuffer (cs : List Char) : List String × Bool × List Char :=
  drainBufferF (cs.length + 1) cs

theorem drainBufferF_congr :
    ∀ fu fu' cs, cs.length < fu → cs.length < fu' →
      drainBufferF fu cs = drainBufferF fu' cs := by
  intro fu
  induction fu with
  | zero => intro fu' cs h _; omega
  | succ fu ih =>
    intro fu' cs h h'
    match fu', h' with
    | fu' + 1, h' =>
      show drainBufferF (fu + 1) cs = drainBufferF (fu' + 1) cs
      simp only [drainBufferF]
      match hs : splitNL cs with
      | none => rfl
      | some (l, r) =>
        have hr := splitNL_rest_length hs
        have e := ih fu' r (by omega) (by omega)
        simp only [hs]
        cases hl : handleLine l <;> simp [hl, e]

theorem drainBuffer_step {cs l r : List Char} (h : splitNL cs = some (l, r)) :
    drainBuffer cs =
      (match handleLine l with
       | .skip => drainBuffer r
       | .emit f =>
         let (fs, d, b) := drainBuffer r
         (f :: fs, d, b)
       | .done => ([], true, [])) := by
  have hr := splitNL_rest_length h
  show drainBufferF (cs.length + 1) cs = _
  simp only [drainBufferF, h]
  have e : drainBufferF cs.length r = drainBuffer r :=
    drainBufferF_congr cs.length (r.length + 1) r (by omega) (by omega)
  cases hl : handleLine l <;> simp [hl, e, drainBuffer]

/-- Chunk-level loop: the `select` case for a received stream chunk.  The
buffer is threaded between chunks; an exhausted chunk list models the
stream channel closing (`if !ok return`, a clean end). -/
def runChunks : List Char → List String → List String × Bool
  | _, [] => ([], false)
  | buf, c :: rest =>
    let (fs, d, buf2) := drainBuffer (buf ++ c.data)
    if d then (fs, true)
    else
      let (fs2, d2) := runChunks buf2 rest
      (fs ++ fs2, d2)

/-- Modelled from the spec: the decoder §4.2 requires that "partial
trailing data remains buffered for the next chunk".  Identical to
`drainBufferF` except that the data of an incomplete trailing line stays
in the residual buffer instead of being consumed and dropped. -/
def drainBufferSpecF : Nat → List Char → List String × Bool × List Char
  | 0, cs => ([], false, cs)
  | fu + 1, cs =>
    match splitNL cs with
    | none => ([], false, cs)
    | some (l, r) =>
      match handleLine l with
      | .skip => drainBufferSpecF fu r
      | .emit f =>
        let (fs, d, b) := drainBufferSpecF fu r
        (f :: fs, d, b)
      | .done => ([], true, [])

/-- Modelled from the spec: buffered line extraction with adequate fuel. -/
def drainBufferSpec (cs : List Char) : List String × Bool × List Char :=
  drainBufferSpecF (cs.length + 1) cs

/-- Modelled from the spec: chunk-level loop over the spec-mandated
buffered line extraction. -/
def runChunksSpec : List Char → List String → List String × Bool
  | _, [] => ([], false)
  | buf, c :: rest =>
    let (fs, d, buf2) := drainBufferSpec (buf ++ c.data)
    if d then (fs, true)
    else
      let (fs2, d2) := runChunksSpec buf2 rest
      (fs ++ fs2, d2)

/-! Agent control loop: `schema.Role`, `schema.Message`
(schema/message.go) and `ReactAgent.Generate`, `parseToolCall`,
`escapeString` of the agent package. -/

/-- Message roles (schema/message.go). -/
inductive Role where
  | user
  | system
  | assistant
  | tool
deriving Repr, DecidableEq

/-- Chat message: a role plus textual content. -/
structure Message where
  role : Role
  content : String
deriving Repr, DecidableEq

/-- Result of one `ChatModel.Generate(ctx, history)` call, covering the
three shapes the loop distinguishes: a returned error, a nil message with
nil error, and a proper message. -/
inductive ModelResult where
  | failed (e : String)
  | empty
  | reply (m : Message)

/-- A chat model is observed by the loop only through its response to the
history passed to each call (the history strictly grows between calls, so
any per-call behavior is representable). -/
abbrev ModelFn := List Message → ModelResult

/-- Parsed tool invocation (`parseToolCall`'s anonymous result struct):
the tool name and the argument map, `none` modelling a nil Go map when no
argument alias matched. -/
structure ToolCall where
  name : String
  args : Option JObj

/-- Go type assertion `x.(string)` on an optional dynamic value, the empty
string standing for a failed or absent assertion (the callers only test
the result against the empty string, making the two indistinguishable). -/
def strOf : Option Json → String
  | some (.str v) => v
  | _ => ""

/-- Go type assertion `x.(map[string]interface\x7b\x7d)` on an optional
dynamic value. -/
def objOf : Option Json → Option JObj
  | some (.obj m) => some m
  | _ => none

/-- Name of the nested `function.name` alias. -/
def fnNameOf (raw : JObj) : String :=
  match objOf (jlookup raw "function") with
  | some fn => strOf (jlookup fn "name")
  | none => ""

/-- Name-selection chain of `parseToolCall` (lines 151-163): `tool`
first, each later alias consulted only while the name is still empty. -/
def codeAliasName (raw : JObj) : String :=
  let n := strOf (jlookup raw "tool")
  let n := if n = "" then strOf (jlookup raw "name") else n
  if n = "" then fnNameOf raw else n

/-- Argument-selection chain of `parseToolCall` (lines 165-173):
`arguments`, then `args`, then `input`, the first holding a map. -/
def codeAliasArgs (raw : JObj) : Option JObj :=
  match objOf (jlookup raw "arguments") with
  | some m => some m
  | none =>
    match objOf (jlookup raw "args") with
    | some m => some m
    | none => objOf (jlookup raw "input")

/-- Tool-call parsing (agent, `parseToolCall`, lines 144-186): unmarshal
the content into a map, run the alias chains, succeed only with a
non-empty name. -/
def parseToolCall (content : String) : Option ToolCall :=
  match decodeObj content with
  | none => none
  | some raw =>
    if codeAliasName raw = "" then none
    else some ⟨codeAliasName raw, codeAliasArgs raw⟩

/-- Modelled from the spec (§4.1 parsing rule): the first name alias in
priority order `tool`, `name`, `function.name` that resolves to a
non-empty string wins. -/
def specAliasName (raw : JObj) : String :=
  let candidates := [strOf (jlookup raw "tool"), strOf (jlookup raw "name"), fnNameOf raw]
  match candidates.filter (fun s => s ≠ "") with
  | [] => ""
  | v :: _ => v

/-- Modelled from the spec (§4.1 parsing rule): the first argument alias
in priority order `arguments`, `args`, `input` that holds a mapping wins. -/
def specAliasArgs (raw : JObj) : Option JObj :=
  let candidates := [jlookup raw "arguments", jlookup raw "args", jlookup raw "input"]
  match candidates.filterMap objOf with
  | [] => none
  | m :: _ => some m

/-- Modelled from the spec (§4.1 parsing rule): parsing fails exactly when
the content is not structured data (a JSON object) or no name alias
resolves to a non-empty string. -/
def parseToolCallSpec (content : String) : Option ToolCall :=
  match decodeObj content with
  | none => none
  | some raw =>
    if specAliasName raw = "" then none
    else some ⟨specAliasName raw, specAliasArgs raw⟩

/-- Minimal JSON string escape of the agent package (`escapeString`):
three `strings.ReplaceAll` passes, backslash, then double quote, then
newline.  All three patterns are single characters. -/
def replaceAll1 (pat : Char) (rep : String) : List Char → List Char
  | [] => []
  | c :: cs => (if c = pat then rep.data else [c]) ++ replaceAll1 pat rep cs

/-- Replacement pass composition of `escapeString` (agent, lines 188-194). -/
def escapeString (s : String) : String :=
  String.mk (replaceAll1 newlineC (String.mk [backslashC, 'n'])
    (replaceAll1 quoteC (String.mk [backslashC, quoteC])
      (replaceAll1 backslashC (String.mk [backslashC, backslashC]) s.data)))

/-- Dynamic Go value returned by a tool executor: either a value in the
JSON fragment (always serializable) or a value `json.Marshal` rejects
(channels, functions, ...), carried with its `fmt` `%v` rendering. -/
inductive GoVal where
  | json (j : Json)
  | unser (rendering : String)

/-- Result of `Tool.Execute`. -/
inductive ExecResult where
  | ok (v : GoVal)
  | execErr (e : String)

/-- Tool as the loop sees it: `Info().Name` plus the executor. -/
structure ToolDef where
  name : String
  execute : Option JObj → ExecResult

/-- json.Marshal on an executor result: total on the JSON fragment,
failing on unserializable values. -/
def marshalResult : GoVal → Option String
  | .json j => some (serialize j)
  | .unser _ => none

/-- fmt `%v` rendering used by the serialization fallback (only reached
for unserializable values, whose rendering is carried verbatim; for JSON
values the marshalled form stands in, that branch being unreachable). -/
def goFmtV : GoVal → String
  | .json j => serialize j
  | .unser r => r

/-- Tool result content on execution error (Generate, line 112). -/
def toolErrorContent (e : String) : String :=
  String.mk [lbraceC] ++ "\"error\":\"" ++ escapeString e ++ "\"" ++ String.mk [rbraceC]

/-- Tool result content on success (Generate, lines 114-118): marshalled
result, or the `%v` fallback when marshalling fails. -/
def toolSuccessContent (v : GoVal) : String :=
  match marshalResult v with
  | some s => s
  | none => String.mk [lbraceC] ++ "\"result\":\"" ++ goFmtV v ++ "\"" ++ String.mk [rbraceC]

/-- Tool result content for either execution outcome. -/
def toolResultContent : ExecResult → String
  | .execErr e => toolErrorContent e
  | .ok v => toolSuccessContent v

/-- Tool matching (Generate, lines 97-103): first registered tool whose
`Info().Name` equals the requested name. -/
def findTool (tools : List ToolDef) (name : String) : Option ToolDef :=
  match tools with
  | [] => none
  | t :: rest => if t.name = name then some t else findTool rest name

/-- Content of the "tool not found" sentinel message (Generate, line
105). -/
def toolNotFoundContent (name : String) : String :=
  "tool " ++ squote ++ name ++ squote ++ " not found"

/-- Observable outcome of one `Generate` call: the returned message, the
returned error (`none` for Go `nil`), the final `State.messages`, and the
number of model calls performed. -/
structure GenResult where
  message : Message
  error : Option String
  messages : List Message
  calls : Nat
deriving Repr, DecidableEq

/-- Iterations of the `for step` loop of `ReactAgent.Generate` (lines
75-138), by remaining budget.  Each iteration calls the model once; a
tool-role reply is recorded, parsed, dispatched, and its result appended
as a second tool-role message before looping; an assistant reply is
appended and returned; other roles are appended and the loop continues;
an exhausted budget yields the "max steps reached" sentinel. -/
def genLoop (model : ModelFn) (tools : List ToolDef) : Nat → List Message → GenResult
  | 0, msgs => ⟨⟨.assistant, "max steps reached"⟩, none, msgs, 0⟩
  | n + 1, msgs =>
    match model msgs with
    | .failed e => ⟨⟨.assistant, e⟩, some e, msgs, 1⟩
    | .empty => ⟨⟨.assistant, "empty message returned"⟩, none, msgs, 1⟩
    | .reply m =>
      if m.role = .tool then
        let msgs1 := msgs ++ [m]
        match parseToolCall m.content with
        | none => ⟨⟨.assistant, "invalid tool call payload"⟩, none, msgs1, 1⟩
        | some call =>
          match findTool tools call.name with
          | none => ⟨⟨.assistant, toolNotFoundContent call.name⟩, none, msgs1, 1⟩
          | some t =>
            let content := toolResultContent (t.execute call.args)
            let r := genLoop model tools n (msgs1 ++ [⟨.tool, content⟩])
            ⟨r.message, r.error, r.messages, r.calls + 1⟩
      else if m.role = .assistant then
        ⟨m, none, msgs ++ [m], 1⟩
      else
        let r := genLoop model tools n (msgs ++ [m])
        ⟨r.message, r.error, r.messages, r.calls + 1⟩

/-- Agent configuration after construction: `MaxStep` (a Go int, possibly
negative), the model (`none` modelling a nil `ChatModel`), and the
registered tools. -/
structure AgentConf where
  maxStep : Int
  model : Option ModelFn
  tools : List ToolDef

/-- ReactAgent.Generate (lines 68-139): guard against a nil model, append
the input history to the state, then run the step loop; `for step := 0;
step < MaxStep` performs `max 0 MaxStep` iterations. -/
def generate (conf : AgentConf) (state input : List Message) : GenResult :=
  match conf.model with
  | none => ⟨⟨.assistant, "model not initialized"⟩, none, state, 0⟩
  | some model => genLoop model conf.tools conf.maxStep.toNat (state ++ input)

/-- MaxStep adjustment of `NewReactAgent` (lines 61-63): only an exactly
zero configured value is replaced by the default 8. -/
def resolveMaxStep (m : Int) : Int := if m = 0 then 8 else m

/-- CalculatorTool (tool/calculator.go): `safeEval` handles two hardcoded
expressions; `Execute` requires a string `expression` argument and returns
a map with the result and the expression.  The float64 results 4, 12 and 0
are carried by their marshalled lexemes. -/
def safeEval (expr : String) : String :=
  if expr = "2+2" then "4"
  else if expr = "3*4" then "12"
  else "0"

/-- Execute of CalculatorTool, over the dynamic argument map (a missing or
non-string `expression` yields the Chinese "expression parameter error"
message of the source). -/
def calculatorExecute (args : Option JObj) : ExecResult :=
  match args with
  | none => .execErr "表达式参数错误"
  | some m =>
    match jlookup m "expression" with
    | some (.str expr) =>
        .ok (.json (.obj [("result", .num (safeEval expr)), ("expression", .str expr)]))
    | _ => .execErr "表达式参数错误"

/-- The calculator tool as registered with the agent. -/
def calculatorTool : ToolDef := ⟨"calculator", calculatorExecute⟩

/-! Concrete fixtures used to evaluate the theorems on closed inputs. -/

/-- A model that always requests the unregistered tool `ghost`. -/
def ghostModel : ModelFn := fun _ =>
  .reply ⟨.tool, String.mk [lbraceC] ++ "\"tool\":\"ghost\"" ++ String.mk [rbraceC]⟩

/-- A model that always requests the calculator on `2+2`. -/
def calcLoopModel : ModelFn := fun _ =>
  .reply ⟨.tool, String.mk [lbraceC] ++
    "\"tool\":\"calculator\",\"arguments\":" ++ String.mk [lbraceC] ++
    "\"expression\":\"2+2\"" ++ String.mk [rbraceC] ++ String.mk [rbraceC]⟩

/-- A model that always answers directly. -/
def answerModel : ModelFn := fun _ => .reply ⟨.assistant, "the answer"⟩

/-- A tool whose executor always fails, with a message holding a quote and
a newline. -/
def boomTool : ToolDef := ⟨"boom", fun _ => .execErr ("fail" ++ String.mk [quoteC, newlineC] ++ "end")⟩

/-- A tool whose executor returns a value `json.Marshal` rejects. -/
def chanTool : ToolDef := ⟨"chan", fun _ => .ok (.unser "0xc000012345")⟩

/-- A model that always requests the `boom` tool. -/
def boomModel : ModelFn := fun _ =>
  .reply ⟨.tool, String.mk [lbraceC] ++ "\"tool\":\"boom\"" ++ String.mk [rbraceC]⟩

/-- A model that always requests the `chan` tool. -/
def chanModel : ModelFn := fun _ =>
  .reply ⟨.tool, String.mk [lbraceC] ++ "\"tool\":\"chan\"" ++ String.mk [rbraceC]⟩

/-- A tool whose executor fails with a carriage return (a control
character other than newline) inside the message. -/
def crTool : ToolDef := ⟨"cr", fun _ => .execErr (String.mk ['a', Char.ofNat 13, 'b'])⟩

/-- A model that always requests the `cr` tool. -/
def crModel : ModelFn := fun _ =>
  .reply ⟨.tool, String.mk [lbraceC] ++ "\"tool\":\"cr\"" ++ String.mk [rbraceC]⟩

/-- The split SSE chunks of the reassembly test: a `data:` line whose
payload carries the delta text `Hello`, cut before `lo`. -/
def chunkHel : String :=
  "data: " ++ String.mk [lbraceC] ++ "\"choices\":[" ++ String.mk [lbraceC] ++
    "\"delta\":" ++ String.mk [lbraceC] ++ "\"content\":\"Hel"

/-- Second chunk: the rest of the line plus its terminating newlines. -/
def chunkLo : String :=
  "lo\"" ++ String.mk [rbraceC, rbraceC] ++ "]" ++ String.mk [rbraceC] ++ "\n\n"

/-- A complete single-line chunk carrying delta text `Hello`. -/
def helloLine : String := chunkHel ++ chunkLo

/-- The reassembled `Hello` data line alone, single trailing newline. -/
def helloLine1 : String :=
  chunkHel ++ "lo\"" ++ String.mk [rbraceC, rbraceC] ++ "]" ++ String.mk [rbraceC] ++ "\n"

/-! Theorems. -/

/-- Helper: the loop body performs at most one model call per unit of
remaining budget. -/
theorem genLoop_calls_le (model : ModelFn) (tools : List ToolDef) :
    ∀ n msgs, (genLoop model tools n msgs).calls ≤ n := by
  intro n
  induction n with
  | zero => intro msgs; exact Nat.le_refl 0
  | succ n ih =>
    intro msgs
    simp only [genLoop]
    cases hm : model msgs with
    | failed e => simp
    | empty => simp
    | reply m =>
      by_cases ht : m.role = Role.tool
      · simp only [if_pos ht]
        cases hp : parseToolCall m.content with
        | none => simp [hp]
        | some call =>
          cases hf : findTool tools call.name with
          | none => simp [hp, hf]
          | some t =>
            simp only [hp, hf]
            exact Nat.succ_le_succ (ih _)
      · by_cases ha : m.role = Role.assistant
        · simp only [if_neg ht, if_pos ha]; simp
        · simp only [if_neg ht, if_neg ha]
          exact Nat.succ_le_succ (ih _)

/-- Helper: every branch of the loop returns an assistant-role message. -/
theorem genLoop_role (model : ModelFn) (tools : List ToolDef) :
    ∀ n msgs, (genLoop model tools n msgs).message.role = Role.assistant := by
  intro n
  induction n with
  | zero => intro msgs; rfl
  | succ n ih =>
    intro msgs
    simp only [genLoop]
    cases hm : model msgs with
    | failed e => rfl
    | empty => rfl
    | reply m =>
      by_cases ht : m.role = Role.tool
      · simp only [if_pos ht]
        cases hp : parseToolCall m.content with
        | none => simp [hp]
        | some call =>
          cases hf : findTool tools call.name with
          | none => simp [hp, hf]
          | some t =>
            simp only [hp, hf]
            exact ih _
      · by_cases ha : m.role = Role.assistant
        · simp only [if_neg ht, if_pos ha]; exact ha
        · simp only [if_neg ht, if_neg ha]
          exact ih _

/-- C8: every terminal outcome of Generate — assistant answer, model-call
failure, empty model response, invalid tool-call payload, tool not found,
max-step exhaustion, and the nil-model guard — returns exactly one final
message whose role is assistant; a tool-role message is never the visible
final answer. -/
theorem generate_final_role_assistant (conf : AgentConf) (state input : List Message) :
    (generate conf state input).message.role = Role.assistant := by
  cases hc : conf.model with
  | none => simp [generate, hc]
  | some model => simp [generate, hc, genLoop_role]

/-- C5: for every step budget N the loop performs at most N model calls
per Generate invocation, and whenever the pending model call returns an
assistant-role message with budget remaining, Generate appends it and
returns exactly that message with a nil error, after exactly that one
further model call. -/
theorem generate_budget_and_assistant_stop (model : ModelFn) (tools : List ToolDef) :
    (∀ (N : Nat) (state input : List Message),
        (generate ⟨(N : Int), some model, tools⟩ state input).calls ≤ N) ∧
    (∀ (n : Nat) (msgs : List Message) (m : Message),
        model msgs = .reply m → m.role = Role.assistant → 1 ≤ n →
        genLoop model tools n msgs = ⟨m, none, msgs ++ [m], 1⟩) := by
  constructor
  · intro N state input
    simpa [generate] using genLoop_calls_le model tools N (state ++ input)
  · intro n msgs m hm ha hn
    match n, hn with
    | n + 1, _ =>
      have ht : ¬ m.role = Role.tool := by rw [ha]; intro h; cases h
      simp only [genLoop, hm, if_neg ht, if_pos ha]

/-- Witness for C5 at a concrete model: one call, the exact assistant
reply returned with nil error. -/
theorem generate_budget_and_assistant_stop_witness :
    genLoop answerModel [calculatorTool] 8 [⟨Role.user, "hi"⟩] =
      ⟨⟨Role.assistant, "the answer"⟩, none,
        [⟨Role.user, "hi"⟩, ⟨Role.assistant, "the answer"⟩], 1⟩ :=
  (generate_budget_and_assistant_stop answerModel [calculatorTool]).2
    8 [⟨Role.user, "hi"⟩] ⟨Role.assistant, "the answer"⟩ rfl rfl (by decide)

/-- C10: a negative configured MaxStep is left negative by the
constructor (only an exact zero is replaced by the default 8), and every
Generate call then performs zero model calls and immediately returns the
"max steps reached" sentinel with a nil error. -/
theorem negative_maxstep_zero_calls (m : Int) (hm : m < 0) :
    resolveMaxStep m = m ∧
    ∀ (model : ModelFn) (tools : List ToolDef) (state input : List Message),
      generate ⟨resolveMaxStep m, some model, tools⟩ state input =
        ⟨⟨Role.assistant, "max steps reached"⟩, none, state ++ input, 0⟩ := by
  have hne : m ≠ 0 := by omega
  have hres : resolveMaxStep m = m := by simp [resolveMaxStep, hne]
  refine ⟨hres, ?_⟩
  intro model tools state input
  have h0 : m.toNat = 0 := Int.toNat_of_nonpos (le_of_lt hm)
  simp [generate, hres, h0, genLoop]

/-- Witness for C10 at MaxStep minus one. -/
theorem negative_maxstep_zero_calls_witness :
    resolveMaxStep (-1) = -1 ∧
    generate ⟨resolveMaxStep (-1), some answerModel, [calculatorTool]⟩ [] [⟨Role.user, "q"⟩] =
      ⟨⟨Role.assistant, "max steps reached"⟩, none, [⟨Role.user, "q"⟩], 0⟩ := by
  have h := negative_maxstep_zero_calls (-1) (by decide)
  exact ⟨h.1, by simpa using h.2 answerModel [calculatorTool] [] [⟨Role.user, "q"⟩]⟩

/-- Helper: when every model call requests a registered tool, the loop
runs its full remaining budget, two messages appended per iteration. -/
theorem genLoop_all_tool_steps (model : ModelFn) (tools : List ToolDef)
    (H : ∀ msgs, ∃ m call t, model msgs = .reply m ∧ m.role = Role.tool ∧
        parseToolCall m.content = some call ∧ findTool tools call.name = some t) :
    ∀ (n : Nat) (msgs : List Message),
      (genLoop model tools n msgs).message = ⟨Role.assistant, "max steps reached"⟩ ∧
      (genLoop model tools n msgs).error = none ∧
      (genLoop model tools n msgs).calls = n ∧
      (genLoop model tools n msgs).messages.length = msgs.length + 2 * n := by
  intro n
  induction n with
  | zero => intro msgs; exact ⟨rfl, rfl, rfl, by simp [genLoop]⟩
  | succ n ih =>
    intro msgs
    obtain ⟨m, call, t, hm, ht, hp, hf⟩ := H msgs
    have ih' := ih (msgs ++ [m] ++ [⟨Role.tool, toolResultContent (t.execute call.args)⟩])
    simp only [genLoop, hm, if_pos ht, hp, hf]
    refine ⟨ih'.1, ih'.2.1, by rw [ih'.2.2.1], ?_⟩
    rw [ih'.2.2.2]
    simp
    omega

/-- C3: if every model call returns a tool-role message whose content
parses to a registered tool, Generate with step budget N makes exactly N
model calls, returns the "max steps reached" sentinel assistant message
with a nil error, and the final history length is the length after
appending the initial input plus 2 N (a tool-request and a tool-result
message per iteration). -/
theorem generate_all_tool_steps_exhausts (model : ModelFn) (tools : List ToolDef)
    (H : ∀ msgs, ∃ m call t, model msgs = .reply m ∧ m.role = Role.tool ∧
        parseToolCall m.content = some call ∧ findTool tools call.name = some t)
    (N : Nat) (hN : 1 ≤ N) (state input : List Message) :
    (generate ⟨(N : Int), some model, tools⟩ state input).calls = N ∧
    (generate ⟨(N : Int), some model, tools⟩ state input).message =
      ⟨Role.assistant, "max steps reached"⟩ ∧
    (generate ⟨(N : Int), some model, tools⟩ state input).error = none ∧
    (generate ⟨(N : Int), some model, tools⟩ state input).messages.length =
      (state ++ input).length + 2 * N := by
  have h := genLoop_all_tool_steps model tools H N (state ++ input)
  refine ⟨?_, ?_, ?_, ?_⟩
  · simpa [generate] using h.2.2.1
  · simpa [generate] using h.1
  · simpa [generate] using h.2.1
  · simpa [generate] using h.2.2.2

/-- Witness for C3: the calculator-requesting model with budget 3 makes
three calls, yields the sentinel with nil error, and grows the single-user
history by six messages. -/
theorem generate_all_tool_steps_exhausts_witness :
    (generate ⟨(3 : Int), some calcLoopModel, [calculatorTool]⟩ [] [⟨Role.user, "go"⟩]).calls = 3 ∧
    (generate ⟨(3 : Int), some calcLoopModel, [calculatorTool]⟩ [] [⟨Role.user, "go"⟩]).message =
      ⟨Role.assistant, "max steps reached"⟩ ∧
    (generate ⟨(3 : Int), some calcLoopModel, [calculatorTool]⟩ [] [⟨Role.user, "go"⟩]).error = none ∧
    (generate ⟨(3 : Int), some calcLoopModel, [calculatorTool]⟩ [] [⟨Role.user, "go"⟩]).messages.length =
      ([] ++ [(⟨Role.user, "go"⟩ : Message)]).length + 2 * 3 :=
  generate_all_tool_steps_exhausts calcLoopModel [calculatorTool]
    (fun _ => ⟨⟨Role.tool, String.mk [lbraceC] ++
        "\"tool\":\"calculator\",\"arguments\":" ++ String.mk [lbraceC] ++
        "\"expression\":\"2+2\"" ++ String.mk [rbraceC] ++ String.mk [rbraceC]⟩,
      ⟨"calculator", some [("expression", Json.str "2+2")]⟩, calculatorTool,
      rfl, rfl, rfl, rfl⟩)
    3 (by decide) [] [⟨Role.user, "go"⟩]

/-- C1 (amended): a tool-role model message naming an unregistered tool
terminates Generate on that very step, whatever budget remains: exactly
one further model call happens, the returned message is the assistant
sentinel naming the tool — and the returned error is nil, not non-nil. -/
theorem genLoop_tool_not_found (model : ModelFn) (tools : List ToolDef)
    (n : Nat) (msgs : List Message) (m : Message) (call : ToolCall)
    (hm : model msgs = .reply m) (ht : m.role = Role.tool)
    (hp : parseToolCall m.content = some call)
    (hf : findTool tools call.name = none) (hn : 1 ≤ n) :
    genLoop model tools n msgs =
      ⟨⟨Role.assistant, toolNotFoundContent call.name⟩, none, msgs ++ [m], 1⟩ := by
  match n, hn with
  | n + 1, _ => simp only [genLoop, hm, if_pos ht, hp, hf]

/-- Witness for C1's amended statement: a remaining budget of 7 is cut to
a single call by the unregistered `ghost` request, with a nil error. -/
theorem genLoop_tool_not_found_witness :
    genLoop ghostModel [calculatorTool] 7 [⟨Role.user, "hi"⟩] =
      ⟨⟨Role.assistant, toolNotFoundContent "ghost"⟩, none,
        [⟨Role.user, "hi"⟩,
         ⟨Role.tool, String.mk [lbraceC] ++ "\"tool\":\"ghost\"" ++ String.mk [rbraceC]⟩], 1⟩ :=
  genLoop_tool_not_found ghostModel [calculatorTool] 7 [⟨Role.user, "hi"⟩]
    ⟨Role.tool, String.mk [lbraceC] ++ "\"tool\":\"ghost\"" ++ String.mk [rbraceC]⟩
    ⟨"ghost", none⟩ rfl rfl rfl rfl (by decide)

/-- C1 counterexample: at a concrete run hitting the "tool not found"
outcome, Generate returns a nil error (the claim's non-nil fatal error
return does not happen); the sentinel message names the tool. -/
theorem generate_tool_not_found_nil_error :
    (generate ⟨8, some ghostModel, [calculatorTool]⟩ [] [⟨Role.user, "hi"⟩]).error = none ∧
    (generate ⟨8, some ghostModel, [calculatorTool]⟩ [] [⟨Role.user, "hi"⟩]).message =
      ⟨Role.assistant, toolNotFoundContent "ghost"⟩ :=
  ⟨rfl, rfl⟩

/-- C6 (amended): a failing tool execution does not end the turn — the
loop appends a tool-role message whose content is the error object built
from the `escapeString`-escaped message and continues with the remaining
budget, where the escaping covers exactly backslash, double quote and
newline (any other character, control characters included, passes through
raw); a successful execution appends the marshalled result, the `%v`
fallback object standing in when marshalling fails. -/
theorem genLoop_tool_result_feedback (model : ModelFn) (tools : List ToolDef)
    (n : Nat) (msgs : List Message) (m : Message) (call : ToolCall) (t : ToolDef)
    (hm : model msgs = .reply m) (ht : m.role = Role.tool)
    (hp : parseToolCall m.content = some call)
    (hf : findTool tools call.name = some t) :
    (∀ e, t.execute call.args = .execErr e →
        genLoop model tools (n + 1) msgs =
          ⟨(genLoop model tools n (msgs ++ [m] ++ [⟨Role.tool, toolErrorContent e⟩])).message,
           (genLoop model tools n (msgs ++ [m] ++ [⟨Role.tool, toolErrorContent e⟩])).error,
           (genLoop model tools n (msgs ++ [m] ++ [⟨Role.tool, toolErrorContent e⟩])).messages,
           (genLoop model tools n (msgs ++ [m] ++ [⟨Role.tool, toolErrorContent e⟩])).calls + 1⟩) ∧
    (∀ v, t.execute call.args = .ok v →
        genLoop model tools (n + 1) msgs =
          ⟨(genLoop model tools n (msgs ++ [m] ++ [⟨Role.tool, toolSuccessContent v⟩])).message,
           (genLoop model tools n (msgs ++ [m] ++ [⟨Role.tool, toolSuccessContent v⟩])).error,
           (genLoop model tools n (msgs ++ [m] ++ [⟨Role.tool, toolSuccessContent v⟩])).messages,
           (genLoop model tools n (msgs ++ [m] ++ [⟨Role.tool, toolSuccessContent v⟩])).calls + 1⟩) ∧
    (∀ e, toolErrorContent e =
        String.mk [lbraceC] ++ "\"error\":\"" ++ escapeString e ++ "\"" ++ String.mk [rbraceC]) ∧
    (∀ j, toolSuccessContent (.json j) = serialize j) ∧
    (∀ s, toolSuccessContent (.unser s) =
        String.mk [lbraceC] ++ "\"result\":\"" ++ s ++ "\"" ++ String.mk [rbraceC]) ∧
    (∀ c : Char, c ≠ backslashC → c ≠ quoteC → c ≠ newlineC →
        escapeString (String.mk [c]) = String.mk [c]) := by
  refine ⟨?_, ?_, fun e => rfl, fun j => rfl, fun s => rfl, ?_⟩
  · intro e he
    simp only [genLoop, hm, if_pos ht, hp, hf, he, toolResultContent]
  · intro v hv
    simp only [genLoop, hm, if_pos ht, hp, hf, hv, toolResultContent]
  · intro c hb hq hn
    simp [escapeString, replaceAll1, hb, hq, hn]

/-- Witness for C6: the `boom` tool's quote-and-newline error message is
escaped into the error object and fed back (turn continuing into the next
iteration), the `chan` tool's unserializable result takes the `%v`
fallback object — both evaluated on concrete two-step runs — and a
carriage return passes through `escapeString` unchanged. -/
theorem genLoop_tool_result_feedback_witness :
    (genLoop boomModel [boomTool] 2 [] =
      ⟨(genLoop boomModel [boomTool] 1
          ([] ++ [⟨Role.tool, String.mk [lbraceC] ++ "\"tool\":\"boom\"" ++ String.mk [rbraceC]⟩] ++
           [⟨Role.tool, toolErrorContent ("fail" ++ String.mk [quoteC, newlineC] ++ "end")⟩])).message,
       (genLoop boomModel [boomTool] 1
          ([] ++ [⟨Role.tool, String.mk [lbraceC] ++ "\"tool\":\"boom\"" ++ String.mk [rbraceC]⟩] ++
           [⟨Role.tool, toolErrorContent ("fail" ++ String.mk [quoteC, newlineC] ++ "end")⟩])).error,
       (genLoop boomModel [boomTool] 1
          ([] ++ [⟨Role.tool, String.mk [lbraceC] ++ "\"tool\":\"boom\"" ++ String.mk [rbraceC]⟩] ++
           [⟨Role.tool, toolErrorContent ("fail" ++ String.mk [quoteC, newlineC] ++ "end")⟩])).messages,
       (genLoop boomModel [boomTool] 1
          ([] ++ [⟨Role.tool, String.mk [lbraceC] ++ "\"tool\":\"boom\"" ++ String.mk [rbraceC]⟩] ++
           [⟨Role.tool, toolErrorContent ("fail" ++ String.mk [quoteC, newlineC] ++ "end")⟩])).calls + 1⟩) ∧
    (genLoop chanModel [chanTool] 2 [] =
      ⟨(genLoop chanModel [chanTool] 1
          ([] ++ [⟨Role.tool, String.mk [lbraceC] ++ "\"tool\":\"chan\"" ++ String.mk [rbraceC]⟩] ++
           [⟨Role.tool, toolSuccessContent (.unser "0xc000012345")⟩])).message,
       (genLoop chanModel [chanTool] 1
          ([] ++ [⟨Role.tool, String.mk [lbraceC] ++ "\"tool\":\"chan\"" ++ String.mk [rbraceC]⟩] ++
           [⟨Role.tool, toolSuccessContent (.unser "0xc000012345")⟩])).error,
       (genLoop chanModel [chanTool] 1
          ([] ++ [⟨Role.tool, String.mk [lbraceC] ++ "\"tool\":\"chan\"" ++ String.mk [rbraceC]⟩] ++
           [⟨Role.tool, toolSuccessContent (.unser "0xc000012345")⟩])).messages,
       (genLoop chanModel [chanTool] 1
          ([] ++ [⟨Role.tool, String.mk [lbraceC] ++ "\"tool\":\"chan\"" ++ String.mk [rbraceC]⟩] ++
           [⟨Role.tool, toolSuccessContent (.unser "0xc000012345")⟩])).calls + 1⟩) ∧
    escapeString (String.mk [Char.ofNat 13]) = String.mk [Char.ofNat 13] :=
  ⟨(genLoop_tool_result_feedback boomModel [boomTool] 1 []
      ⟨Role.tool, String.mk [lbraceC] ++ "\"tool\":\"boom\"" ++ String.mk [rbraceC]⟩
      ⟨"boom", none⟩ boomTool rfl rfl rfl rfl).1
      ("fail" ++ String.mk [quoteC, newlineC] ++ "end") rfl,
   (genLoop_tool_result_feedback chanModel [chanTool] 1 []
      ⟨Role.tool, String.mk [lbraceC] ++ "\"tool\":\"chan\"" ++ String.mk [rbraceC]⟩
      ⟨"chan", none⟩ chanTool rfl rfl rfl rfl).2.1
      (.unser "0xc000012345") rfl,
   (genLoop_tool_result_feedback boomModel [boomTool] 1 []
      ⟨Role.tool, String.mk [lbraceC] ++ "\"tool\":\"boom\"" ++ String.mk [rbraceC]⟩
      ⟨"boom", none⟩ boomTool rfl rfl rfl rfl).2.2.2.2.2
      (Char.ofNat 13) (by decide) (by decide) (by decide)⟩

/-- C6 counterexample: run against a tool failing with a carriage return
in its message, the synthesized error content carries that control
character raw — it contains the CR byte and no backslash at all, so
control characters other than newline are not escaped as the claim
states. -/
theorem genLoop_error_control_char_unescaped :
    (genLoop crModel [crTool] 1 []).messages =
      [⟨Role.tool, String.mk [lbraceC] ++ "\"tool\":\"cr\"" ++ String.mk [rbraceC]⟩,
       ⟨Role.tool, String.mk [lbraceC] ++ "\"error\":\"a" ++ String.mk [Char.ofNat 13] ++
          "b\"" ++ String.mk [rbraceC]⟩] ∧
    Char.ofNat 13 ∈ (toolErrorContent (String.mk ['a', Char.ofNat 13, 'b'])).data ∧
    backslashC ∉ (toolErrorContent (String.mk ['a', Char.ofNat 13, 'b'])).data :=
  ⟨rfl, by decide, by decide⟩

/-- Helper: the source's name-selection chain picks the first alias
resolving to a non-empty string, as the spec words it. -/
theorem codeAliasName_eq_spec (raw : JObj) : codeAliasName raw = specAliasName raw := by
  simp only [codeAliasName, specAliasName]
  by_cases h1 : strOf (jlookup raw "tool") = "" <;>
    by_cases h2 : strOf (jlookup raw "name") = "" <;>
      by_cases h3 : fnNameOf raw = "" <;>
        simp [h1, h2, h3]

/-- Helper: the source's argument-selection chain picks the first alias
holding a mapping, as the spec words it. -/
theorem codeAliasArgs_eq_spec (raw : JObj) : codeAliasArgs raw = specAliasArgs raw := by
  simp only [codeAliasArgs, specAliasArgs]
  cases h1 : objOf (jlookup raw "arguments") <;>
    cases h2 : objOf (jlookup raw "args") <;>
      cases h3 : objOf (jlookup raw "input") <;>
        simp [h1, h2, h3]

/-- Helper: parsing agrees with its spec description on every content. -/
theorem parseToolCall_eq_spec_all (s : String) : parseToolCall s = parseToolCallSpec s := by
  simp only [parseToolCall, parseToolCallSpec]
  cases hd : decodeObj s with
  | none => rfl
  | some raw => simp only [codeAliasName_eq_spec, codeAliasArgs_eq_spec]

/-- C4: the three alias spellings resolve to the same tool call (name `x`,
arguments `a` mapped to 1); the name aliases are tried in priority order
`tool`, `name`, `function.name` and the argument aliases in order
`arguments`, `args`, `input`, first match winning (agreement with the
spec-worded selection); and parsing fails exactly when the content is not
a structured object or no name alias yields a non-empty string. -/
theorem parseToolCall_alias_equivalence :
    (parseToolCall (String.mk [lbraceC] ++ "\"tool\":\"x\",\"arguments\":" ++
        String.mk [lbraceC] ++ "\"a\":1" ++ String.mk [rbraceC, rbraceC]) =
      some ⟨"x", some [("a", Json.num "1")]⟩ ∧
     parseToolCall (String.mk [lbraceC] ++ "\"name\":\"x\",\"args\":" ++
        String.mk [lbraceC] ++ "\"a\":1" ++ String.mk [rbraceC, rbraceC]) =
      some ⟨"x", some [("a", Json.num "1")]⟩ ∧
     parseToolCall (String.mk [lbraceC] ++ "\"function\":" ++ String.mk [lbraceC] ++
        "\"name\":\"x\"" ++ String.mk [rbraceC] ++ ",\"input\":" ++
        String.mk [lbraceC] ++ "\"a\":1" ++ String.mk [rbraceC, rbraceC]) =
      some ⟨"x", some [("a", Json.num "1")]⟩) ∧
    (∀ s, parseToolCall s = parseToolCallSpec s) ∧
    (∀ s, parseToolCall s = none ↔
        decodeObj s = none ∨ ∃ raw, decodeObj s = some raw ∧ specAliasName raw = "") := by
  refine ⟨⟨rfl, rfl, rfl⟩, parseToolCall_eq_spec_all, ?_⟩
  intro s
  rw [parseToolCall_eq_spec_all]
  simp only [parseToolCallSpec]
  cases hd : decodeObj s with
  | none => simp
  | some raw =>
    by_cases hn : specAliasName raw = "" <;> simp [hn]

/-- Helper: a line starting with the event-data prefix is not empty. -/
theorem starts_data_ne_empty (line : String) (h : strStarts line "data: " = true) :
    ¬ line = "" := by
  intro he
  rw [he] at h
  exact absurd h (by decide)

/-- Helper: a `listStarts` match against a non-empty pattern pins the
head character. -/
theorem listStarts_head {c p : Char} {cs ps : List Char}
    (h : listStarts (c :: cs) (p :: ps) = true) : c = p := by
  by_cases hcp : c = p
  · exact hcp
  · simp [listStarts, hcp] at h

/-- Helper: a line starting with the event-data prefix is not a comment
line. -/
theorem starts_data_not_colon (line : String) (h : strStarts line "data: " = true) :
    strStarts line ":" = false := by
  rcases line with ⟨data⟩
  cases data with
  | nil => exact absurd h (by decide)
  | cons c cs =>
    have h' : listStarts (c :: cs) ('d' :: "ata: ".data) = true := h
    have hc : c = 'd' := listStarts_head h'
    show listStarts (c :: cs) (':' :: []) = false
    rw [hc]
    simp only [listStarts, if_neg (by decide : ¬ ('d' = ':'))]

/-- Helper: `ReadString` on a buffer whose first newline follows `l`
returns that line and leaves the rest. -/
theorem splitNL_append_no_newline :
    ∀ (l r : List Char), (∀ c ∈ l, c ≠ newlineC) →
      splitNL (l ++ newlineC :: r) = some (l ++ [newlineC], r) := by
  intro l
  induction l with
  | nil => intro r _; simp [splitNL]
  | cons c cs ih =>
    intro r hno
    have hc : c ≠ newlineC := hno c (by simp)
    have hrec := ih r (fun x hx => hno x (by simp [hx]))
    simp only [List.cons_append, splitNL, if_neg hc, List.append_eq]
    rw [hrec]

/-- C7: for every complete input line, the decoder skips blank lines,
comment lines, and lines lacking the `data: ` prefix; a `[DONE]` data line
anywhere in the buffer ends the stream cleanly (no further fragments, no
error emission on this path), ignoring anything that follows in this or
later chunks; an undecodable data line is skipped without aborting the stream
(processing continues on the rest of the buffer); and a decoded event with
a non-empty first-choice delta is emitted as exactly one fragment. -/
theorem streamDecoder_line_behaviors :
    (∀ raw, trimRightCRLF raw = [] → handleLine raw = .skip) ∧
    (∀ raw, strStarts (lineOf raw) ":" = true → handleLine raw = .skip) ∧
    (∀ raw, strStarts (lineOf raw) "data: " = false → handleLine raw = .skip) ∧
    (∀ raw, strStarts (lineOf raw) "data: " = true →
        dataOf (lineOf raw) = "[DONE]" → handleLine raw = .done) ∧
    (∀ cs l r, splitNL cs = some (l, r) → handleLine l = .done →
        drainBuffer cs = ([], true, [])) ∧
    (∀ (restChunk : String) (more : List String),
        runChunks [] (("data: [DONE]\n" ++ restChunk) :: more) = ([], true)) ∧
    (∀ raw, strStarts (lineOf raw) "data: " = true →
        ¬ dataOf (lineOf raw) = "[DONE]" →
        decodeStreamResp (dataOf (lineOf raw)) = none →
        handleLine raw = .skip) ∧
    (∀ cs l r, splitNL cs = some (l, r) → handleLine l = .skip →
        drainBuffer cs = drainBuffer r) ∧
    (∀ raw resp choice rest, strStarts (lineOf raw) "data: " = true →
        ¬ dataOf (lineOf raw) = "[DONE]" →
        decodeStreamResp (dataOf (lineOf raw)) = some resp →
        resp.choices = choice :: rest →
        ¬ choice.delta.content = "" →
        handleLine raw = .emit choice.delta.content) ∧
    (∀ cs l r f, splitNL cs = some (l, r) → handleLine l = .emit f →
        drainBuffer cs =
          (f :: (drainBuffer r).1, (drainBuffer r).2.1, (drainBuffer r).2.2)) := by
  refine ⟨?_, ?_, ?_, ?_, ?_, ?_, ?_, ?_, ?_, ?_⟩
  · intro raw h
    have hline : lineOf raw = "" := by simp [lineOf, h]
    simp [handleLine, hline]
  · intro raw h
    by_cases hline : lineOf raw = ""
    · simp [handleLine, hline]
    · simp only [handleLine, if_neg hline, if_pos h]
  · intro raw h
    by_cases hline : lineOf raw = ""
    · simp [handleLine, hline]
    · by_cases hcol : strStarts (lineOf raw) ":" = true
      · simp only [handleLine, if_neg hline, if_pos hcol]
      · simp only [handleLine, if_neg hline, if_neg hcol,
          if_pos (show ¬ strStarts (lineOf raw) "data: " = true by simp [h])]
  · intro raw h1 h2
    simp only [handleLine]
    rw [if_neg (starts_data_ne_empty _ h1)]
    rw [if_neg (by simp [starts_data_not_colon _ h1])]
    rw [if_neg (by simp [h1])]
    rw [if_pos h2]
  · intro cs l r hs hl
    have := drainBuffer_step hs
    rw [hl] at this
    exact this
  · intro restChunk more
    have hdata : ("data: [DONE]\n" ++ restChunk).data =
        "data: [DONE]".data ++ newlineC :: restChunk.data := by
      show ("data: [DONE]".data ++ [newlineC]) ++ restChunk.data = _
      simp
    have hsplit : splitNL (("data: [DONE]\n" ++ restChunk).data) =
        some ("data: [DONE]".data ++ [newlineC], restChunk.data) := by
      rw [hdata]
      exact splitNL_append_no_newline _ _ (by decide)
    have hline : handleLine ("data: [DONE]".data ++ [newlineC]) = .done := rfl
    have hdb := drainBuffer_step hsplit
    rw [hline] at hdb
    have hdb2 : drainBuffer (("data: [DONE]\n" ++ restChunk).data) = ([], true, []) := hdb
    simp only [runChunks, List.nil_append]
    rw [hdb2]
    rfl
  · intro raw h1 h2 h3
    simp only [handleLine]
    rw [if_neg (starts_data_ne_empty _ h1)]
    rw [if_neg (by simp [starts_data_not_colon _ h1])]
    rw [if_neg (by simp [h1])]
    rw [if_neg h2, h3]
  · intro cs l r hs hl
    have := drainBuffer_step hs
    rw [hl] at this
    exact this
  · intro raw resp choice rest h1 h2 h3 h4 h5
    simp only [handleLine]
    rw [if_neg (starts_data_ne_empty _ h1)]
    rw [if_neg (by simp [starts_data_not_colon _ h1])]
    rw [if_neg (by simp [h1])]
    rw [if_neg h2]
    simp only [h3, h4, if_neg h5]
  · intro cs l r f hs hl
    have := drainBuffer_step hs
    rw [hl] at this
    simpa using this

/-- Witness for C7, each behavior evaluated on a concrete line or buffer:
the empty line, a comment line, a non-data line, the `[DONE]` sentinel
followed by further input, an undecodable data line (standalone and inside
a buffer), and the `Hello` delta line (standalone and inside a buffer). -/
theorem streamDecoder_line_behaviors_witness :
    handleLine "\r\n".data = .skip ∧
    handleLine ": comment\n".data = .skip ∧
    handleLine "event: x\n".data = .skip ∧
    handleLine "data: [DONE]\r\n".data = .done ∧
    drainBuffer "data: [DONE]\nextra".data = ([], true, []) ∧
    runChunks [] [("data: [DONE]\n" ++ "tail"), "data: junk\n"] = ([], true) ∧
    handleLine "data: notjson\n".data = .skip ∧
    drainBuffer "event: x\nZ".data = drainBuffer "Z".data ∧
    handleLine helloLine.data = .emit "Hello" ∧
    drainBuffer helloLine.data =
      ("Hello" :: (drainBuffer "\n".data).1,
       (drainBuffer "\n".data).2.1, (drainBuffer "\n".data).2.2) := by
  refine ⟨?_, ?_, ?_, ?_, ?_, ?_, ?_, ?_, ?_, ?_⟩
  · exact streamDecoder_line_behaviors.1 "\r\n".data rfl
  · exact streamDecoder_line_behaviors.2.1 ": comment\n".data rfl
  · exact streamDecoder_line_behaviors.2.2.1 "event: x\n".data rfl
  · exact streamDecoder_line_behaviors.2.2.2.1 "data: [DONE]\r\n".data rfl rfl
  · exact streamDecoder_line_behaviors.2.2.2.2.1 "data: [DONE]\nextra".data
      "data: [DONE]\n".data "extra".data rfl rfl
  · exact streamDecoder_line_behaviors.2.2.2.2.2.1 "tail" ["data: junk\n"]
  · exact streamDecoder_line_behaviors.2.2.2.2.2.2.1 "data: notjson\n".data rfl
      (by decide) rfl
  · exact streamDecoder_line_behaviors.2.2.2.2.2.2.2.1 "event: x\nZ".data
      "event: x\n".data "Z".data rfl rfl
  · exact streamDecoder_line_behaviors.2.2.2.2.2.2.2.2.1 helloLine.data
      ⟨"", "", 0, "", [⟨0, ⟨"", ""⟩, ⟨"", "Hello"⟩, ""⟩]⟩
      ⟨0, ⟨"", ""⟩, ⟨"", "Hello"⟩, ""⟩ [] rfl (by decide) rfl rfl (by decide)
  · exact streamDecoder_line_behaviors.2.2.2.2.2.2.2.2.2 helloLine.data
      helloLine1.data "\n".data "Hello" rfl rfl

/-- C2 (code bug): the chunk whose newline is still missing is consumed
and dropped by `buf.ReadString` before the `io.EOF` break, so the split
`Hello` line yields no fragment at all from the code, while the
spec-mandated buffering of partial trailing data yields exactly one
`Hello` fragment after the second chunk. -/
theorem streamDecoder_split_chunk_divergence :
    runChunks [] [chunkHel, chunkLo] = ([], false) ∧
    runChunksSpec [] [chunkHel, chunkLo] = (["Hello"], false) :=
  ⟨rfl, rfl⟩

end ReactAgent
